import Mathlib

/-!
Verification development for the polymarket-arb-bot repository.

The Python modules under scrutiny (modules/scanner.py, modules/risk.py,
modules/trading.py, modules/positions.py, modules/markets.py,
strategies/combinatorial.py, strategies/endgame.py) are shallowly embedded
below.  Python floats are modelled as exact rationals, dict-shaped records
as structures with Option fields for keys that may be absent, and the
network and filesystem collaborators (RPC, CLOB transport, market lookup,
the positions.json store) as explicit oracle parameters and threaded state.
Configuration values read from environment variables become parameters,
with their documented defaults used for concrete instances.
-/

namespace PolyArb

/-- YES and NO sides of a binary market (the strings "YES" and "NO" in the
Python code, which raises on any other value after upper-casing). -/
inductive Side where
  | yes
  | no
deriving DecidableEq, Repr

/-- Python round() is round-half-to-even; this is its exact counterpart on
rationals, used by positions.py and risk.py when they round results. -/
def roundHalfEven (q : ℚ) : ℤ :=
  let f := ⌊q⌋
  let r := q - (f : ℚ)
  if r < 1/2 then f
  else if 1/2 < r then f + 1
  else if f % 2 = 0 then f else f + 1

/-- Python round(x, 2). -/
def round2 (q : ℚ) : ℚ := (roundHalfEven (q * 100) : ℚ) / 100

/-- Python round(x, 4). -/
def round4 (q : ℚ) : ℚ := (roundHalfEven (q * 10000) : ℚ) / 10000

/-- Python round(x, 6). -/
def round6 (q : ℚ) : ℚ := (roundHalfEven (q * 1000000) : ℚ) / 1000000

/-- A normalized market record as produced by markets._normalize_market and
consumed by the scanner, the endgame strategy and chain sync.  Prices are
Option: a missing yes/no price is None in the Python dict.  Token ids are
Option String; the empty string is also treated as falsy by consumers. -/
structure Market where
  condition_id : String
  question : String
  yes_price : Option ℚ
  no_price : Option ℚ
  yes_token_id : Option String
  no_token_id : Option String
  liquidity : ℚ
deriving DecidableEq, Repr

/-- Trading configuration values read from the environment in config.py,
passed as parameters here (defaults in defaultScanConfig). -/
structure ScanConfig where
  minProfitThreshold : ℚ
  maxPositionSize : ℚ
  takerFeeRate : ℚ
  minLiquidity : ℚ
  maxTradesPerHour : ℕ
deriving DecidableEq, Repr

/-- The documented defaults: MIN_PROFIT_THRESHOLD=0.005, MAX_POSITION_SIZE=50,
TAKER_FEE_RATE=0.001, MIN_LIQUIDITY=100, MAX_TRADES_PER_HOUR=20. -/
def defaultScanConfig : ScanConfig :=
  { minProfitThreshold := 1/200
    maxPositionSize := 50
    takerFeeRate := 1/1000
    minLiquidity := 100
    maxTradesPerHour := 20 }

/-- A pair-cost opportunity dict as built in scanner.scan_for_arbitrage. -/
structure PairOpp where
  condition_id : String
  market_question : String
  yes_price : ℚ
  no_price : ℚ
  yes_token_id : Option String
  no_token_id : Option String
  total_cost : ℚ
  net_profit : ℚ
  net_profit_pct : ℚ
  liquidity : ℚ
  max_size : ℚ
deriving DecidableEq, Repr

/-- The per-market body of the loop in scanner.scan_for_arbitrage
(scanner.py lines 49-83): skip when a price is missing or liquidity is
below MIN_LIQUIDITY, compute net cost and profit percentage, and emit the
opportunity dict when the percentage reaches MIN_PROFIT_THRESHOLD. -/
def pairDecision (cfg : ScanConfig) (m : Market) : Option PairOpp :=
  match m.yes_price, m.no_price with
  | some yesPrice, some noPrice =>
    if m.liquidity < cfg.minLiquidity then none
    else
      let totalCost := yesPrice + noPrice
      let fee := cfg.takerFeeRate * 2
      let netCost := totalCost + fee
      let netProfit := 1 - netCost
      let netProfitPct := if 0 < netCost then netProfit / netCost else 0
      if cfg.minProfitThreshold ≤ netProfitPct then
        some { condition_id := m.condition_id
               market_question := m.question
               yes_price := yesPrice
               no_price := noPrice
               yes_token_id := m.yes_token_id
               no_token_id := m.no_token_id
               total_cost := netCost
               net_profit := netProfit
               net_profit_pct := netProfitPct
               liquidity := m.liquidity
               max_size := min cfg.maxPositionSize (m.liquidity * (1/10)) }
      else none
  | _, _ => none

/-- scanner.scan_for_arbitrage on an explicit market list: collect the
per-market emissions and sort descending by net_profit_pct. -/
def scanForArbitrage (cfg : ScanConfig) (markets : List Market) : List PairOpp :=
  List.insertionSort (fun a b => b.net_profit_pct ≤ a.net_profit_pct)
    (markets.filterMap (pairDecision cfg))

/-- A record of positions.json as written by positions.record_position and
mutated by the close and chain-sync paths.  Keys that a fresh record lacks
(closed_at, exit_price, realized_pnl, sync_note) are Option. -/
structure Position where
  id : String
  condition_id : String
  side : Side
  size : ℚ
  entry_price : ℚ
  opened_at : ℚ
  closed : Bool
  closed_at : Option ℚ
  exit_price : Option ℚ
  realized_pnl : Option ℚ
  sync_note : Option String
deriving DecidableEq, Repr

/-- positions.record_position: append a fresh open position to the store.
The id is derived from condition id, side and the integer timestamp. -/
def recordPosition (now : ℚ) (store : List Position) (conditionId : String)
    (side : Side) (size entryPrice : ℚ) : Position × List Position :=
  let sideStr := match side with | .yes => "YES" | .no => "NO"
  let p : Position :=
    { id := conditionId ++ "_" ++ sideStr ++ "_" ++ toString ⌊now⌋
      condition_id := conditionId
      side := side
      size := size
      entry_price := entryPrice
      opened_at := now
      closed := false
      closed_at := none
      exit_price := none
      realized_pnl := none
      sync_note := none }
  (p, store ++ [p])

/-- positions.get_onchain_balance: the ERC-1155 balanceOf call is the
oracle argument (raw 6-decimal integer balance, or the exception message);
any exception is swallowed and reported as a balance of 0.0. -/
def getOnchainBalance (rpc : Except String ℕ) : ℚ :=
  match rpc with
  | .ok raw => (raw : ℚ) / 1000000
  | .error _ => 0

/-- A discrepancy entry as appended by positions.sync_positions_with_chain. -/
structure Discrepancy where
  position_id : String
  condition_id : String
  side : Side
  local_size : ℚ
  onchain_balance : ℚ
  diff : ℚ
deriving DecidableEq, Repr

/-- The external collaborators of sync_positions_with_chain: market lookup
by condition id, the raw balanceOf RPC per token id, and the clock. -/
structure SyncEnv where
  marketOf : String → Option Market
  balanceCall : String → Except String ℕ
  now : ℚ

/-- The per-position body of the loop in sync_positions_with_chain
(positions.py lines 276-316): closed positions are not processed; a
missing market or falsy token id skips the position; otherwise compare
the on-chain balance with the local size, and on a discrepancy larger
than 0.01 either force-close (balance exactly zero) or overwrite size. -/
def syncOne (env : SyncEnv) (p : Position) : Position × Option Discrepancy :=
  if p.closed then (p, none)
  else
    match env.marketOf p.condition_id with
    | none => (p, none)
    | some m =>
      let tokenId := match p.side with
        | .yes => m.yes_token_id
        | .no => m.no_token_id
      match tokenId with
      | none => (p, none)
      | some t =>
        if t = "" then (p, none)
        else
          let onchainBalance := getOnchainBalance (env.balanceCall t)
          if 1/100 < |onchainBalance - p.size| then
            let d : Discrepancy :=
              { position_id := p.id
                condition_id := p.condition_id
                side := p.side
                local_size := p.size
                onchain_balance := onchainBalance
                diff := round4 (onchainBalance - p.size) }
            if onchainBalance = 0 then
              ({ p with closed := true
                        closed_at := some env.now
                        sync_note := some "closed_by_chain_sync" }, some d)
            else
              ({ p with size := onchainBalance
                        sync_note := some "size_adjusted_by_chain_sync" }, some d)
          else (p, none)

/-- positions.sync_positions_with_chain: every open position is processed
by the loop body; closed positions are left untouched; the discrepancy
details are collected in iteration order. -/
def syncPositionsWithChain (env : SyncEnv) (positions : List Position) :
    List Position × List Discrepancy :=
  (positions.map (fun p => (syncOne env p).1),
   positions.filterMap (fun p => (syncOne env p).2))

/-- The violations check_risk_limits can report, one tag per f-string
message in risk.py, in the order the code appends them. -/
inductive Violation where
  | killSwitch
  | sizeLimit
  | concurrentPositions
  | marketExposure
  | totalExposure
  | dailyLoss
  | drawdown
deriving DecidableEq, Repr

/-- Risk configuration read from the environment in risk.py, with the
documented defaults in defaultRiskConfig. -/
structure RiskConfig where
  maxPositionSize : ℚ
  maxDrawdownPct : ℚ
  maxDailyLoss : ℚ
  maxMarketExposure : ℚ
  maxTotalExposure : ℚ
  maxConcurrentPositions : ℕ
deriving DecidableEq, Repr

/-- Defaults: MAX_POSITION_SIZE=50, MAX_DRAWDOWN_PCT=20, MAX_DAILY_LOSS=50,
MAX_MARKET_EXPOSURE=150, MAX_TOTAL_EXPOSURE=500, MAX_CONCURRENT_POSITIONS=10. -/
def defaultRiskConfig : RiskConfig :=
  { maxPositionSize := 50
    maxDrawdownPct := 20
    maxDailyLoss := 50
    maxMarketExposure := 150
    maxTotalExposure := 500
    maxConcurrentPositions := 10 }

/-- The module-scoped mutable risk state of risk.py. -/
structure RiskState where
  killSwitchActive : Bool
  initialPortfolioValue : Option ℚ
deriving DecidableEq, Repr

/-- risk.activate_kill_switch. -/
def activateKillSwitch (st : RiskState) : RiskState :=
  { st with killSwitchActive := true }

/-- risk.deactivate_kill_switch, the only write that clears the flag. -/
def deactivateKillSwitch (st : RiskState) : RiskState :=
  { st with killSwitchActive := false }

/-- risk._compute_daily_loss: sum of |realized_pnl| over positions closed
at or after today's UTC midnight with negative realized pnl.  dayStart is
the _today_start_ts() timestamp. -/
def computeDailyLoss (dayStart : ℚ) (positions : List Position) : ℚ :=
  positions.foldl
    (fun acc p =>
      if ¬ p.closed then acc
      else if p.closed_at.getD 0 < dayStart then acc
      else
        let realized := p.realized_pnl.getD 0
        if realized < 0 then acc + |realized| else acc)
    0

/-- The extra keys of the full check_risk_limits result dict (absent from
the kill-switch early return). -/
structure RiskStats where
  open_positions : ℕ
  total_exposure : ℚ
  daily_loss : ℚ
deriving DecidableEq, Repr

/-- The result dict of check_risk_limits. -/
structure RiskResult where
  allowed : Bool
  violations : List Violation
  stats : Option RiskStats
deriving DecidableEq, Repr

/-- risk.check_risk_limits (risk.py lines 54-147).  The position store,
clock and mutable risk state are explicit; the returned state reflects
the kill-switch writes the call may perform (activation on daily-loss or
drawdown breach).  The kill-switch check returns early with the single
violation and touches nothing. -/
def checkRiskLimits (rc : RiskConfig) (st : RiskState) (dayStart : ℚ)
    (positions : List Position) (proposedSize : ℚ) (conditionId : String) :
    RiskResult × RiskState :=
  if st.killSwitchActive then
    ({ allowed := false, violations := [.killSwitch], stats := none }, st)
  else
    let v1 : List Violation :=
      if rc.maxPositionSize < proposedSize then [.sizeLimit] else []
    let openPositions := positions.filter (fun p => ¬ p.closed)
    let v2 : List Violation :=
      if rc.maxConcurrentPositions ≤ openPositions.length then [.concurrentPositions] else []
    let v3 : List Violation :=
      if conditionId ≠ "" then
        let marketExposure :=
          (openPositions.filter (fun p => p.condition_id = conditionId)).foldl
            (fun a p => a + p.size * p.entry_price) 0
        if rc.maxMarketExposure < marketExposure + proposedSize then [.marketExposure] else []
      else []
    let totalExposure :=
      openPositions.foldl (fun a p => a + p.size * p.entry_price) 0
    let v4 : List Violation :=
      if rc.maxTotalExposure < totalExposure + proposedSize then [.totalExposure] else []
    let dailyLoss := computeDailyLoss dayStart positions
    let dailyHit : Bool := decide (rc.maxDailyLoss ≤ dailyLoss)
    let v5 : List Violation := if dailyHit then [.dailyLoss] else []
    let ddHit : Bool :=
      match st.initialPortfolioValue with
      | some iv =>
        decide (0 < iv) &&
          decide (rc.maxDrawdownPct ≤ (iv - (iv - dailyLoss)) / iv * 100)
      | none => false
    let v6 : List Violation := if ddHit then [.drawdown] else []
    let violations := v1 ++ v2 ++ v3 ++ v4 ++ v5 ++ v6
    let newState := if dailyHit || ddHit then activateKillSwitch st else st
    ({ allowed := violations.isEmpty
       violations := violations
       stats := some { open_positions := openPositions.length
                       total_exposure := round2 totalExposure
                       daily_loss := round2 dailyLoss } },
     newState)

/-- Effects performed against external collaborators by the execution
pipeline, in order: the signed split transaction, a CLOB sell order
submission, a ledger write, a market-detail refresh. -/
inductive Action where
  | splitTx (conditionId : String) (amountUsdc : ℚ)
  | sellOrder (tokenId : String) (size : ℚ) (price : ℚ)
  | recordPos (p : Position)
  | refresh (conditionId : String)
deriving DecidableEq, Repr

/-- The collaborators one call to trading.buy interacts with: the split
transaction receipt status, its hash, and the CLOB transport outcome of
each place_order attempt (CLOB_MAX_RETRIES attempts at most). -/
structure TradeEnv where
  splitOk : Bool
  splitTxHash : String
  maxRetries : ℕ
  sellAttemptOk : ℕ → Bool

/-- The result dict of trading.split_position. -/
structure SplitResult where
  tx_hash : String
  status : String
  amount_usdc : ℚ
  condition_id : String
deriving DecidableEq, Repr

/-- trading.split_position: build, sign and submit the splitPosition
transaction (the chain interaction is the oracle); status is "success"
exactly when the receipt status is 1. -/
def splitPosition (env : TradeEnv) (conditionId : String) (amountUsdc : ℚ) :
    SplitResult :=
  { tx_hash := env.splitTxHash
    status := if env.splitOk then "success" else "failed"
    amount_usdc := amountUsdc
    condition_id := conditionId }

/-- trading.place_order retry loop: try up to maxRetries attempts (the
exponential-backoff sleeps have no observable effect here); return the
1-based attempt number of the first success, or none when every attempt
raised. -/
def placeOrderAttempt (maxRetries : ℕ) (attemptOk : ℕ → Bool) : Option ℕ :=
  ((List.range maxRetries).find? (fun i => attemptOk i)).map (fun i => i + 1)

/-- The sell_status value of the buy result dict: "placed" (with the
attempt field of the place_order result) or "skipped". -/
inductive SellStatus where
  | placed (attempt : ℕ)
  | skipped
deriving DecidableEq, Repr

/-- The trade_result dict built at the end of trading.buy. -/
structure ExecutedResult where
  side : Side
  amount_usdc : ℚ
  entry_price : ℚ
  net_cost : ℚ
  recovered : ℚ
  split_tx : String
  sell_status : SellStatus
  condition_id : String
deriving DecidableEq, Repr

/-- The three return shapes of trading.buy.  On the split-failure early
return the Python code writes a dict literal whose "split_failed" status
key is immediately overwritten by the unpacked split_result, so the
status field carried here is the split result's own status string. -/
inductive BuyResult where
  | dryRunRes (side : Side) (amountUsdc : ℚ) (conditionId : String)
  | splitFailed (status : String) (txHash : String) (amountUsdc : ℚ) (conditionId : String)
  | executed (r : ExecutedResult)
deriving DecidableEq, Repr

/-- The condition of trading.py lines 331-336: the CLOB sell is attempted
only when skip_sell is false and the unwanted side's token id is truthy
(present and nonempty); the result is the token id sold, or none. -/
def sellTargetOf (side : Side) (yesTokenId noTokenId : Option String)
    (skipSell : Bool) : Option String :=
  let unwantedTokenId := match side with | .yes => noTokenId | .no => yesTokenId
  let usable : Option String :=
    match unwantedTokenId with
    | some t => if t = "" then none else some t
    | none => none
  if skipSell then none else usable

/-- trading.buy (trading.py lines 286-372): split collateral, optionally
sell the unwanted side on the CLOB, compute the entry price and record
the position.  Returns the result dict, the position store after the
call, and the trace of external effects performed. -/
def buy (env : TradeEnv) (now : ℚ) (store : List Position)
    (conditionId : String) (side : Side) (amountUsdc currentPrice : ℚ)
    (yesTokenId noTokenId : Option String) (skipSell dryRun : Bool) :
    BuyResult × List Position × List Action :=
  if dryRun then
    (.dryRunRes side amountUsdc conditionId, store, [])
  else
    let splitRes := splitPosition env conditionId amountUsdc
    if splitRes.status ≠ "success" then
      (.splitFailed splitRes.status splitRes.tx_hash amountUsdc conditionId,
       store, [.splitTx conditionId amountUsdc])
    else
      let sellTarget := sellTargetOf side yesTokenId noTokenId skipSell
      let sellPlaced : Option ℕ :=
        match sellTarget with
        | some _ => placeOrderAttempt env.maxRetries env.sellAttemptOk
        | none => none
      let sellActions : List Action :=
        match sellTarget with
        | some t => [.sellOrder t amountUsdc (1 - currentPrice)]
        | none => []
      let recovered : ℚ :=
        match sellPlaced with
        | some _ => (1 - currentPrice) * amountUsdc
        | none => 0
      let netCost := amountUsdc - recovered
      let entryPrice := if 0 < amountUsdc then netCost / amountUsdc else currentPrice
      let rec_ := recordPosition now store conditionId side amountUsdc entryPrice
      (.executed
        { side := side
          amount_usdc := amountUsdc
          entry_price := entryPrice
          net_cost := netCost
          recovered := recovered
          split_tx := splitRes.tx_hash
          sell_status := match sellPlaced with
            | some a => .placed a
            | none => .skipped
          condition_id := conditionId },
       rec_.2,
       [.splitTx conditionId amountUsdc] ++ sellActions ++ [.recordPos rec_.1])

/-- scanner._trades_in_last_hour: timestamps strictly inside the trailing
3600 seconds. -/
def tradesInLastHour (now : ℚ) (recentTrades : List ℚ) : ℕ :=
  recentTrades.countP (fun t => now - 3600 < t)

/-- The result dict of scanner.execute_opportunity. -/
structure ExecResult where
  condition_id : String
  market_question : String
  size : ℚ
  yes_result : BuyResult
  no_result : BuyResult
  profit_pct : ℚ
deriving Repr

/-- The collaborators of one scanner.execute_opportunity call: the clock,
the market-detail refresh result, and the trade collaborators of the two
buy legs. -/
structure ExecEnv where
  now : ℚ
  refreshed : Option Market
  yesTrade : TradeEnv
  noTrade : TradeEnv

/-- The full outcome of one scanner.execute_opportunity call: its return
value, the rate-limit timestamp list after the call, the position store
after the call, and the trace of external effects. -/
structure ExecOutcome where
  result : Option ExecResult
  recentTrades : List ℚ
  store : List Position
  trace : List Action
deriving Repr

/-- scanner.execute_opportunity (scanner.py lines 99-166): refuse as a
no-op when the trailing-hour trade count has reached MAX_TRADES_PER_HOUR
or the capped size is nonpositive; refresh the market (missing prices
default to 0 via the Python `or 0`); abort when the refreshed cost is at
least 1; otherwise buy both sides with skip_sell=True and, when not a dry
run, append the execution timestamp to the rate-limit window. -/
def executeOpportunity (cfg : ScanConfig) (env : ExecEnv)
    (recentTrades : List ℚ) (store : List Position) (opp : PairOpp)
    (dryRun : Bool) : ExecOutcome :=
  if cfg.maxTradesPerHour ≤ tradesInLastHour env.now recentTrades then
    { result := none, recentTrades := recentTrades, store := store, trace := [] }
  else
    let size := min opp.max_size cfg.maxPositionSize
    if size ≤ 0 then
      { result := none, recentTrades := recentTrades, store := store, trace := [] }
    else
      match env.refreshed with
      | none =>
        { result := none, recentTrades := recentTrades, store := store
          trace := [.refresh opp.condition_id] }
      | some market =>
        let yesPrice := market.yes_price.getD 0
        let noPrice := market.no_price.getD 0
        let refreshedCost := yesPrice + noPrice + cfg.takerFeeRate * 2
        if 1 ≤ refreshedCost then
          { result := none, recentTrades := recentTrades, store := store
            trace := [.refresh opp.condition_id] }
        else
          let yesBuy := buy env.yesTrade env.now store market.condition_id .yes
            (size / 2) yesPrice market.yes_token_id market.no_token_id true dryRun
          let noBuy := buy env.noTrade env.now yesBuy.2.1 market.condition_id .no
            (size / 2) noPrice market.yes_token_id market.no_token_id true dryRun
          { result := some
              { condition_id := opp.condition_id
                market_question := opp.market_question
                size := size
                yes_result := yesBuy.1
                no_result := noBuy.1
                profit_pct := opp.net_profit_pct }
            recentTrades := if dryRun then recentTrades else recentTrades ++ [env.now]
            store := noBuy.2.1
            trace := [.refresh opp.condition_id] ++ yesBuy.2.2 ++ noBuy.2.2 }

/-- Python str.upper on the outcome strings, character by character. -/
def upperStr (s : String) : String := ⟨s.data.map Char.toUpper⟩

/-- An entry of a raw market's tokens array as read by the normalizer and
by strategies/combinatorial.py: outcome label, CLOB token id and an
optional price. -/
structure RawToken where
  outcome : String
  token_id : String
  price : Option ℚ
deriving DecidableEq, Repr

/-- One market (outcome) of a Gamma event as consumed by
combinatorial.analyze_event.  outcomePrices stands for the parsed
outcomePrices JSON array, liquidityNum for the optional liquidityNum key. -/
structure EventMarket where
  conditionId : String
  question : String
  tokens : List RawToken
  outcomePrices : Option (List ℚ)
  liquidityNum : Option ℚ
deriving DecidableEq, Repr

/-- A Gamma event as consumed by the combinatorial strategy. -/
structure CombEvent where
  id : String
  title : String
  negRisk : Bool
  markets : List EventMarket
deriving DecidableEq, Repr

/-- The outcomePrices fallback of the analyze_event loop body
(combinatorial.py lines 77-86) combined with the final usability check: a
first entry that is falsy or nonpositive leaves the price unusable. -/
def fallbackYesPrice (ops : Option (List ℚ)) : Option ℚ :=
  match ops with
  | some (p0 :: _) => if p0 ≤ 0 then none else some p0
  | _ => none

/-- The usable yes price of one outcome market, per the loop body of
analyze_event (combinatorial.py lines 65-89): take the first token whose
outcome upper-cases to "YES" (a missing price key is read as 0 by the
Python `or 0`); when that value is falsy or nonpositive, fall back to the
first entry of outcomePrices; a final falsy-or-nonpositive value makes
the whole event unusable (none). -/
def combYesPrice (m : EventMarket) : Option ℚ :=
  let fromTokens : Option ℚ :=
    match m.tokens.find? (fun t => upperStr t.outcome = "YES") with
    | some t => some (t.price.getD 0)
    | none => none
  let primary : Option ℚ :=
    match fromTokens with
    | some p => if p ≤ 0 then none else some p
    | none => none
  match primary with
  | some p => some p
  | none => fallbackYesPrice m.outcomePrices

/-- The yes token id picked up alongside the price (set only when a YES
token was found in the tokens array, never by the fallback). -/
def combYesTokenId (m : EventMarket) : Option String :=
  match m.tokens.find? (fun t => upperStr t.outcome = "YES") with
  | some t => some t.token_id
  | none => none

/-- One outcome entry of a combinatorial opportunity. -/
structure CombOutcome where
  condition_id : String
  question : String
  yes_price : ℚ
  yes_token_id : Option String
  liquidity : ℚ
deriving DecidableEq, Repr

/-- The accumulation loop of analyze_event: every market must yield a
usable yes price or the event is rejected; collect the outcome entries,
the summed cost and the running minimum liquidity (none plays the role of
the initial float inf). -/
def collectOutcomes : List EventMarket → Option (List CombOutcome × ℚ × Option ℚ)
  | [] => some ([], 0, none)
  | m :: ms =>
    match combYesPrice m with
    | none => none
    | some p =>
      match collectOutcomes ms with
      | none => none
      | some (outs, cost, minLiq) =>
        let liq := m.liquidityNum.getD 0
        let newMin : Option ℚ :=
          match minLiq with
          | none => some liq
          | some l => some (min liq l)
        some
          ({ condition_id := m.conditionId
             question := m.question
             yes_price := p
             yes_token_id := combYesTokenId m
             liquidity := liq } :: outs,
           p + cost, newMin)

/-- A combinatorial opportunity dict as built by analyze_event.
min_liquidity is none when no outcome was processed (float inf). -/
structure CombOpp where
  event_id : String
  event_title : String
  num_outcomes : ℕ
  outcomes : List CombOutcome
  total_cost : ℚ
  net_profit : ℚ
  net_profit_pct : ℚ
  min_liquidity : Option ℚ
  max_size : ℚ
deriving DecidableEq, Repr

/-- combinatorial.analyze_event (combinatorial.py lines 54-125): reject
when any outcome lacks a usable price or the minimum liquidity is below
MIN_LIQUIDITY; cost is the price sum plus one fee per outcome; emit only
when the profit percentage reaches MIN_PROFIT_THRESHOLD. -/
def analyzeEvent (cfg : ScanConfig) (e : CombEvent) : Option CombOpp :=
  match collectOutcomes e.markets with
  | none => none
  | some (outs, totalCost, minLiq) =>
    if (match minLiq with
        | some l => decide (l < cfg.minLiquidity)
        | none => false) then none
    else
      let fee := cfg.takerFeeRate * (outs.length : ℚ)
      let netCost := totalCost + fee
      let netProfit := 1 - netCost
      let netProfitPct := if 0 < netCost then netProfit / netCost else 0
      if netProfitPct < cfg.minProfitThreshold then none
      else
        some
          { event_id := e.id
            event_title := e.title
            num_outcomes := outs.length
            outcomes := outs
            total_cost := round6 netCost
            net_profit := round6 netProfit
            net_profit_pct := netProfitPct
            min_liquidity := minLiq
            max_size :=
              match minLiq with
              | some l => min cfg.maxPositionSize (l * (1/10))
              | none => cfg.maxPositionSize }

/-- The filter applied by combinatorial.fetch_neg_risk_events (lines
44-49) to the events returned by the Gamma API: at least three outcome
markets and the negRisk flag. -/
def filterNegRiskEvents (events : List CombEvent) : List CombEvent :=
  events.filter (fun e => decide (3 ≤ e.markets.length) && e.negRisk)

/-- combinatorial.scan_combinatorial on an explicit event list: the fetch
filter, then analyze_event per event, then sort descending by profit. -/
def scanCombinatorial (cfg : ScanConfig) (events : List CombEvent) : List CombOpp :=
  List.insertionSort (fun a b => b.net_profit_pct ≤ a.net_profit_pct)
    ((filterNegRiskEvents events).filterMap (analyzeEvent cfg))

/-- The per-leg loop of combinatorial.execute_combinatorial: outcomes
with a falsy condition id are skipped; each remaining outcome is bought
on its YES side for an equal share with skip_sell=True.  envs supplies
the trade collaborators of the leg at each list index. -/
def execCombLegs (envs : ℕ → TradeEnv) (now : ℚ) (perOutcome : ℚ)
    (dryRun : Bool) : List CombOutcome → ℕ → List Position →
    List BuyResult × List Position × List Action
  | [], _, store => ([], store, [])
  | o :: os, i, store =>
    if o.condition_id = "" then
      execCombLegs envs now perOutcome dryRun os (i + 1) store
    else
      let b := buy (envs i) now store o.condition_id .yes perOutcome
        o.yes_price o.yes_token_id none true dryRun
      let rest := execCombLegs envs now perOutcome dryRun os (i + 1) b.2.1
      (b.1 :: rest.1, rest.2.1, b.2.2 ++ rest.2.2)

/-- The result dict of execute_combinatorial. -/
structure CombExecResult where
  event : String
  outcomes_traded : ℕ
  total_size : ℚ
  profit_pct : ℚ
  results : List BuyResult
deriving Repr

/-- combinatorial.execute_combinatorial (combinatorial.py lines 145-178). -/
def executeCombinatorial (envs : ℕ → TradeEnv) (now : ℚ)
    (store : List Position) (opp : CombOpp) (dryRun : Bool) :
    CombExecResult × List Position × List Action :=
  let perOutcome := opp.max_size / (opp.num_outcomes : ℚ)
  let legs := execCombLegs envs now perOutcome dryRun opp.outcomes 0 store
  ({ event := opp.event_title
     outcomes_traded := legs.1.length
     total_size := opp.max_size
     profit_pct := opp.net_profit_pct
     results := legs.1 },
   legs.2.1, legs.2.2)

/-- An endgame opportunity dict as built by
endgame.find_endgame_opportunities. -/
structure EndgameOpp where
  condition_id : String
  market_question : String
  recommended_side : Side
  price : ℚ
  profit_per_token : ℚ
  hours_to_resolution : ℚ
  annualized_return : ℚ
  max_size : ℚ
  liquidity : ℚ
  yes_token_id : Option String
  no_token_id : Option String
deriving DecidableEq, Repr

/-- The result dict of execute_endgame. -/
structure EndgameExecResult where
  market : String
  side : Side
  price : ℚ
  hours_left : ℚ
  annualized_return : ℚ
  result : BuyResult
deriving Repr

/-- endgame.execute_endgame (endgame.py lines 129-157): one buy of the
high-confidence side with skip_sell=True. -/
def executeEndgame (env : TradeEnv) (now : ℚ) (store : List Position)
    (opp : EndgameOpp) (dryRun : Bool) :
    EndgameExecResult × List Position × List Action :=
  let b := buy env now store opp.condition_id opp.recommended_side
    opp.max_size opp.price opp.yes_token_id opp.no_token_id true dryRun
  ({ market := opp.market_question
     side := opp.recommended_side
     price := opp.price
     hours_left := opp.hours_to_resolution
     annualized_return := opp.annualized_return
     result := b.1 },
   b.2.1, b.2.2)

/-- A raw Gamma market record as consumed by markets._normalize_market.
outcomePrices and clobTokenIds stand for the parsed JSON arrays. -/
structure RawMarket where
  id : String
  conditionId : String
  question : String
  tokens : List RawToken
  outcomePrices : Option (List ℚ)
  clobTokenIds : Option (List String)
  liquidityNum : Option ℚ
deriving DecidableEq, Repr

/-- Python truthiness of an optional string: None and the empty string
are falsy. -/
def falsyStr : Option String → Bool
  | none => true
  | some s => s = ""

/-- One iteration of the tokens-array pass of _normalize_market
(markets.py lines 239-251): a YES/NO token always overwrites the token
id, and overwrites the price only when its price key is present. -/
def normalizeTokenStep
    (acc : Option ℚ × Option ℚ × Option String × Option String)
    (t : RawToken) : Option ℚ × Option ℚ × Option String × Option String :=
  let (yp, np, yt, nt) := acc
  let outcome := upperStr t.outcome
  if outcome = "YES" then
    ((match t.price with | some p => some p | none => yp), np,
     some t.token_id, nt)
  else if outcome = "NO" then
    (yp, (match t.price with | some p => some p | none => np), yt,
     some t.token_id)
  else acc

/-- The tokens-array pass of _normalize_market. -/
def normalizeTokens (tokens : List RawToken) :
    Option ℚ × Option ℚ × Option String × Option String :=
  tokens.foldl normalizeTokenStep (none, none, none, none)

/-- markets._normalize_market (markets.py lines 222-304), restricted to
the fields of the normalized record the core reads.  Prices missing from
the tokens array fall back to the outcomePrices entries, where a falsy
entry (0) is left as None; token ids missing or empty fall back to
clobTokenIds. -/
def normalizeMarket (raw : RawMarket) : Market :=
  let base := normalizeTokens raw.tokens
  let yp0 := base.1
  let np0 := base.2.1
  let yt0 := base.2.2.1
  let nt0 := base.2.2.2
  let fromOutcomePrices : Option ℚ × Option ℚ :=
    if yp0 = none ∨ np0 = none then
      match raw.outcomePrices with
      | some prices =>
        if 2 ≤ prices.length then
          ((if yp0 = none then
              match prices.get? 0 with
              | some v => if v = 0 then none else some v
              | none => none
            else yp0),
           (if np0 = none then
              match prices.get? 1 with
              | some v => if v = 0 then none else some v
              | none => none
            else np0))
        else (yp0, np0)
      | none => (yp0, np0)
    else (yp0, np0)
  let fromClobIds : Option String × Option String :=
    if falsyStr yt0 || falsyStr nt0 then
      match raw.clobTokenIds with
      | some ids =>
        if 2 ≤ ids.length then
          ((if falsyStr yt0 then ids.get? 0 else yt0),
           (if falsyStr nt0 then ids.get? 1 else nt0))
        else (yt0, nt0)
      | none => (yt0, nt0)
    else (yt0, nt0)
  { condition_id := raw.conditionId
    question := raw.question
    yes_price := fromOutcomePrices.1
    no_price := fromOutcomePrices.2
    yes_token_id := fromClobIds.1
    no_token_id := fromClobIds.2
    liquidity := raw.liquidityNum.getD 0 }

/-- Recognizer for CLOB sell-order submissions in an effect trace. -/
def isSellOrder : Action → Bool
  | .sellOrder _ _ _ => true
  | _ => false

/-- The entry prices of the positions recorded in an effect trace. -/
def recordedEntryPrices (trace : List Action) : List ℚ :=
  trace.filterMap (fun a => match a with
    | .recordPos p => some p.entry_price
    | _ => none)

/-- C2.  The kill switch sticks: with the flag active, check_risk_limits
returns allowed=false with the single kill-switch violation for every
proposed size, condition id, position store and clock; the call leaves
the risk state (hence the flag) untouched, so no call to
check_risk_limits ever clears it; only an explicit
deactivate_kill_switch call resets the flag. -/
theorem kill_switch_sticks (rc : RiskConfig) (st : RiskState) (dayStart : ℚ)
    (positions : List Position) (proposedSize : ℚ) (conditionId : String)
    (h : st.killSwitchActive = true) :
    checkRiskLimits rc st dayStart positions proposedSize conditionId
      = ({ allowed := false, violations := [.killSwitch], stats := none }, st)
    ∧ ((checkRiskLimits rc st dayStart positions proposedSize conditionId).2).killSwitchActive
      = true
    ∧ ∀ st2 : RiskState, (deactivateKillSwitch st2).killSwitchActive = false := by
  refine ⟨?_, ?_, ?_⟩
  · simp [checkRiskLimits, h]
  · simp [checkRiskLimits, h]
  · intro st2
    simp [deactivateKillSwitch]

/-- Witness for C2 at a concrete halted state. -/
theorem kill_switch_sticks_witness :
    checkRiskLimits defaultRiskConfig ⟨true, none⟩ 0 [] 10 "c"
      = ({ allowed := false, violations := [.killSwitch], stats := none },
         ⟨true, none⟩) :=
  (kill_switch_sticks defaultRiskConfig ⟨true, none⟩ 0 [] 10 "c" rfl).1

/-- Helper: the split-failure early return of a non-dry-run buy. -/
theorem buy_split_fail_shape (env : TradeEnv) (now : ℚ)
    (store : List Position) (conditionId : String) (side : Side)
    (amountUsdc currentPrice : ℚ) (yesTokenId noTokenId : Option String)
    (skipSell : Bool) (h : env.splitOk = false) :
    buy env now store conditionId side amountUsdc currentPrice
        yesTokenId noTokenId skipSell false
      = (.splitFailed "failed" env.splitTxHash amountUsdc conditionId,
         store, [.splitTx conditionId amountUsdc]) := by
  simp [buy, splitPosition, h]

/-- C3.  Split-failure atomicity: for a non-dry-run buy whose collateral
split does not come back with status "success", buy returns through the
split-failure early return, the position store is unchanged, and the only
external effect is the failed split transaction itself — no CLOB sell
order is submitted and no position is recorded. -/
theorem split_failure_atomicity (env : TradeEnv) (now : ℚ)
    (store : List Position) (conditionId : String) (side : Side)
    (amountUsdc currentPrice : ℚ) (yesTokenId noTokenId : Option String)
    (skipSell : Bool) (h : env.splitOk = false) :
    buy env now store conditionId side amountUsdc currentPrice
        yesTokenId noTokenId skipSell false
      = (.splitFailed "failed" env.splitTxHash amountUsdc conditionId,
         store, [.splitTx conditionId amountUsdc]) :=
  buy_split_fail_shape env now store conditionId side amountUsdc currentPrice
    yesTokenId noTokenId skipSell h

/-- Witness for C3 at a concrete failing split. -/
theorem split_failure_atomicity_witness :
    buy { splitOk := false, splitTxHash := "0xdead", maxRetries := 5,
          sellAttemptOk := fun _ => true } 1700000000 [] "0xc1" .yes 10 (46/100)
        (some "ty") (some "tn") false false
      = (.splitFailed "failed" "0xdead" 10 "0xc1", [], [.splitTx "0xc1" 10]) :=
  split_failure_atomicity _ 1700000000 [] "0xc1" .yes 10 (46/100)
    (some "ty") (some "tn") false rfl

/-- C6.  Trade-rate throttle: when the count of recorded trade timestamps
within the trailing 3600 seconds has reached MAX_TRADES_PER_HOUR,
execute_opportunity returns None as a pure no-op: the rate-limit window
and the position store are unchanged and the effect trace is empty — no
market refresh, no split transaction, no order placement and no position
record. -/
theorem trade_rate_throttle (cfg : ScanConfig) (env : ExecEnv)
    (recentTrades : List ℚ) (store : List Position) (opp : PairOpp)
    (dryRun : Bool)
    (h : cfg.maxTradesPerHour ≤ tradesInLastHour env.now recentTrades) :
    executeOpportunity cfg env recentTrades store opp dryRun
      = { result := none, recentTrades := recentTrades, store := store,
          trace := [] } := by
  simp [executeOpportunity, h]

/-- Witness for C6: with the per-hour cap set to 0 the throttle refuses
immediately. -/
theorem trade_rate_throttle_witness :
    executeOpportunity { defaultScanConfig with maxTradesPerHour := 0 }
        { now := 0, refreshed := none,
          yesTrade := { splitOk := true, splitTxHash := "0x1", maxRetries := 5,
                        sellAttemptOk := fun _ => true },
          noTrade := { splitOk := true, splitTxHash := "0x2", maxRetries := 5,
                       sellAttemptOk := fun _ => true } }
        [] []
        { condition_id := "0xc1", market_question := "q", yes_price := 46/100,
          no_price := 1/2, yes_token_id := none, no_token_id := none,
          total_cost := 962/1000, net_profit := 38/1000,
          net_profit_pct := 19/481, liquidity := 500, max_size := 50 }
        true
      = { result := none, recentTrades := [], store := [], trace := [] } :=
  trade_rate_throttle _ _ [] [] _ true (Nat.zero_le _)

/-- Helper: the processed form of one open position with a resolvable
token id, as a function of the balance the RPC oracle reports. -/
theorem syncOne_resolved (env : SyncEnv) (p : Position) (m : Market)
    (t : String)
    (hopen : p.closed = false)
    (hm : env.marketOf p.condition_id = some m)
    (ht : (match p.side with | .yes => m.yes_token_id | .no => m.no_token_id)
            = some t)
    (hne : t ≠ "") :
    syncOne env p =
      (if 1/100 < |getOnchainBalance (env.balanceCall t) - p.size| then
        if getOnchainBalance (env.balanceCall t) = 0 then
          ({ p with closed := true, closed_at := some env.now,
                    sync_note := some "closed_by_chain_sync" },
           some { position_id := p.id, condition_id := p.condition_id,
                  side := p.side, local_size := p.size,
                  onchain_balance := getOnchainBalance (env.balanceCall t),
                  diff := round4 (getOnchainBalance (env.balanceCall t) - p.size) })
        else
          ({ p with size := getOnchainBalance (env.balanceCall t),
                    sync_note := some "size_adjusted_by_chain_sync" },
           some { position_id := p.id, condition_id := p.condition_id,
                  side := p.side, local_size := p.size,
                  onchain_balance := getOnchainBalance (env.balanceCall t),
                  diff := round4 (getOnchainBalance (env.balanceCall t) - p.size) })
      else (p, none)) := by
  rw [syncOne]
  simp only [hopen, Bool.false_eq_true, if_false, hm, ht]
  rw [if_neg hne]

/-- C5.  Reconciliation trichotomy: for every open position processed by
sync_positions_with_chain whose market and token id resolve, (a) when the
on-chain balance is within 0.01 of the local size the position comes out
unchanged and no discrepancy is recorded, (b) when the difference exceeds
0.01 and the balance is exactly zero the position is marked closed and
tagged closed_by_chain_sync, (c) otherwise its size is overwritten with
the on-chain value and tagged size_adjusted_by_chain_sync (the latter two
both recording a discrepancy). -/
theorem chain_sync_trichotomy (env : SyncEnv) (positions : List Position)
    (i : ℕ) (p : Position) (m : Market) (t : String)
    (hp : positions[i]? = some p)
    (hopen : p.closed = false)
    (hm : env.marketOf p.condition_id = some m)
    (ht : (match p.side with | .yes => m.yes_token_id | .no => m.no_token_id)
            = some t)
    (hne : t ≠ "") :
    (|getOnchainBalance (env.balanceCall t) - p.size| ≤ 1/100 →
      (syncPositionsWithChain env positions).1[i]? = some p
      ∧ (syncOne env p).2 = none)
    ∧ (1/100 < |getOnchainBalance (env.balanceCall t) - p.size| →
       getOnchainBalance (env.balanceCall t) = 0 →
      (syncPositionsWithChain env positions).1[i]?
        = some { p with
                   closed := true
                   closed_at := some env.now
                   sync_note := some "closed_by_chain_sync" }
      ∧ (syncOne env p).2.isSome = true)
    ∧ (1/100 < |getOnchainBalance (env.balanceCall t) - p.size| →
       getOnchainBalance (env.balanceCall t) ≠ 0 →
      (syncPositionsWithChain env positions).1[i]?
        = some { p with
                   size := getOnchainBalance (env.balanceCall t)
                   sync_note := some "size_adjusted_by_chain_sync" }
      ∧ (syncOne env p).2.isSome = true) := by
  have hkey := syncOne_resolved env p m t hopen hm ht hne
  have hmap : (syncPositionsWithChain env positions).1[i]?
      = some (syncOne env p).1 := by
    simp [syncPositionsWithChain, List.getElem?_map, hp]
  refine ⟨?_, ?_, ?_⟩
  · intro hle
    rw [hkey] at hmap ⊢
    rw [if_neg (not_lt.mpr hle)] at hmap ⊢
    exact ⟨hmap, rfl⟩
  · intro hgt hzero
    rw [hkey] at hmap ⊢
    rw [if_pos hgt, if_pos hzero] at hmap ⊢
    exact ⟨hmap, rfl⟩
  · intro hgt hzero
    rw [hkey] at hmap ⊢
    rw [if_pos hgt, if_neg hzero] at hmap ⊢
    exact ⟨hmap, rfl⟩

/-- C10.  A failed on-chain balance query is reported as a balance of
0.0 — indistinguishable from a true zero balance — so every open position
with local size above 0.01 whose RPC call raises is force-closed by chain
sync and tagged closed_by_chain_sync. -/
theorem rpc_failure_closes_position (env : SyncEnv) (p : Position)
    (m : Market) (t msg : String)
    (hopen : p.closed = false)
    (hm : env.marketOf p.condition_id = some m)
    (ht : (match p.side with | .yes => m.yes_token_id | .no => m.no_token_id)
            = some t)
    (hne : t ≠ "")
    (hrpc : env.balanceCall t = .error msg)
    (hsz : 1/100 < p.size) :
    getOnchainBalance (env.balanceCall t) = 0
    ∧ getOnchainBalance (Except.ok 0) = getOnchainBalance (env.balanceCall t)
    ∧ syncOne env p
      = ({ p with
             closed := true
             closed_at := some env.now
             sync_note := some "closed_by_chain_sync" },
         some { position_id := p.id, condition_id := p.condition_id,
                side := p.side, local_size := p.size, onchain_balance := 0,
                diff := round4 (0 - p.size) }) := by
  have hb : getOnchainBalance (env.balanceCall t) = 0 := by
    rw [hrpc]; rfl
  have hpos : (0:ℚ) < p.size := lt_trans (by norm_num) hsz
  have habs : |getOnchainBalance (env.balanceCall t) - p.size| = p.size := by
    rw [hb, zero_sub, abs_neg, abs_of_pos hpos]
  refine ⟨hb, ?_, ?_⟩
  · rw [hb]
    simp [getOnchainBalance]
  · have hkey := syncOne_resolved env p m t hopen hm ht hne
    rw [hkey, habs, if_pos hsz, if_pos hb, hb]

/-- Shared concrete market and environment for the chain-sync witnesses. -/
def exSyncMarket : Market :=
  { condition_id := "0xc1", question := "q", yes_price := some (46/100),
    no_price := some (1/2), yes_token_id := some "ty",
    no_token_id := some "tn", liquidity := 500 }

/-- A concrete open position of size 10 on the YES side. -/
def exOpenPosition : Position :=
  { id := "0xc1_YES_1700000000", condition_id := "0xc1", side := .yes,
    size := 10, entry_price := 1, opened_at := 1700000000, closed := false,
    closed_at := none, exit_price := none, realized_pnl := none,
    sync_note := none }

/-- Witness for C5 at a concrete store: on-chain balance 7 against local
size 10 adjusts the size. -/
theorem chain_sync_trichotomy_witness :
    (syncPositionsWithChain
        { marketOf := fun _ => some exSyncMarket,
          balanceCall := fun _ => .ok 7000000, now := 1700000100 }
        [exOpenPosition]).1[0]?
      = some { exOpenPosition with
                 size := 7
                 sync_note := some "size_adjusted_by_chain_sync" } := by
  have h := chain_sync_trichotomy
    { marketOf := fun _ => some exSyncMarket,
      balanceCall := fun _ => .ok 7000000, now := 1700000100 }
    [exOpenPosition] 0 exOpenPosition exSyncMarket "ty"
    (by rfl) (by rfl) (by rfl) (by rfl) (by decide)
  have hb : getOnchainBalance
      ((fun _ => Except.ok 7000000 : String → Except String ℕ) "ty") = 7 := by
    simp [getOnchainBalance]
    norm_num
  have h3 := (h.2.2 (by rw [hb]; norm_num [exOpenPosition]) (by rw [hb]; norm_num)).1
  rw [hb] at h3
  exact h3

/-- Witness for C10 at a concrete failing RPC. -/
theorem rpc_failure_closes_position_witness :
    syncOne
        { marketOf := fun _ => some exSyncMarket,
          balanceCall := fun _ => .error "rpc down", now := 1700000100 }
        exOpenPosition
      = ({ exOpenPosition with
             closed := true
             closed_at := some 1700000100
             sync_note := some "closed_by_chain_sync" },
         some { position_id := "0xc1_YES_1700000000", condition_id := "0xc1",
                side := .yes, local_size := 10, onchain_balance := 0,
                diff := round4 (0 - 10) }) := by
  have h := rpc_failure_closes_position
    { marketOf := fun _ => some exSyncMarket,
      balanceCall := fun _ => .error "rpc down", now := 1700000100 }
    exOpenPosition exSyncMarket "ty" "rpc down"
    (by rfl) (by rfl) (by rfl) (by decide) (by rfl) (by norm_num [exOpenPosition])
  simpa [exOpenPosition] using h.2.2

/-- Recognizer for the fully-executed return shape of trading.buy. -/
def isExecuted : BuyResult → Bool
  | .executed _ => true
  | _ => false

/-- Helper: the shape of a non-dry-run buy whose split succeeded, with
the hedge outcome left as a function of the sell target and the
place_order retry result. -/
theorem buy_success_shape (env : TradeEnv) (now : ℚ) (store : List Position)
    (conditionId : String) (side : Side) (amountUsdc currentPrice : ℚ)
    (yesTokenId noTokenId : Option String) (skipSell : Bool)
    (hsplit : env.splitOk = true) :
    buy env now store conditionId side amountUsdc currentPrice
        yesTokenId noTokenId skipSell false
      = (let sellPlaced : Option ℕ :=
           match sellTargetOf side yesTokenId noTokenId skipSell with
           | some _ => placeOrderAttempt env.maxRetries env.sellAttemptOk
           | none => none
         let recovered : ℚ :=
           match sellPlaced with
           | some _ => (1 - currentPrice) * amountUsdc
           | none => 0
         let entryPrice :=
           if 0 < amountUsdc then (amountUsdc - recovered) / amountUsdc
           else currentPrice
         let pr := recordPosition now store conditionId side amountUsdc entryPrice
         (.executed
            { side := side
              amount_usdc := amountUsdc
              entry_price := entryPrice
              net_cost := amountUsdc - recovered
              recovered := recovered
              split_tx := env.splitTxHash
              sell_status := match sellPlaced with
                | some a => .placed a
                | none => .skipped
              condition_id := conditionId }
          , pr.2
          , [Action.splitTx conditionId amountUsdc]
              ++ (match sellTargetOf side yesTokenId noTokenId skipSell with
                  | some t => [Action.sellOrder t amountUsdc (1 - currentPrice)]
                  | none => [])
              ++ [Action.recordPos pr.1])) := by
  simp only [buy, splitPosition, hsplit]
  norm_num

/-- C4.  Entry-price postcondition of buy: after a successful split,
recovered is (1 - current_price) * amount_usdc exactly on the "placed"
hedge status and 0 on the "skipped" status (the only other one: hedge
skipped, token id missing or falsy, or every retry failed);
entry_price = (amount_usdc - recovered) / amount_usdc whenever
amount_usdc > 0; and the buy always reaches the position-recording step —
persistent hedge failure still appends exactly one position to the store
rather than aborting. -/
theorem buy_entry_price_postcondition (env : TradeEnv) (now : ℚ)
    (store : List Position) (conditionId : String) (side : Side)
    (amountUsdc currentPrice : ℚ) (yesTokenId noTokenId : Option String)
    (skipSell : Bool) (hsplit : env.splitOk = true) :
    (∀ r, (buy env now store conditionId side amountUsdc currentPrice
            yesTokenId noTokenId skipSell false).1 = .executed r →
        (∀ k, r.sell_status = .placed k →
            r.recovered = (1 - currentPrice) * amountUsdc)
        ∧ (r.sell_status = .skipped → r.recovered = 0)
        ∧ (0 < amountUsdc →
            r.entry_price = (amountUsdc - r.recovered) / amountUsdc)
        ∧ (skipSell = true → r.sell_status = .skipped))
    ∧ isExecuted (buy env now store conditionId side amountUsdc currentPrice
        yesTokenId noTokenId skipSell false).1 = true
    ∧ ((buy env now store conditionId side amountUsdc currentPrice
        yesTokenId noTokenId skipSell false).2.1).length
      = store.length + 1 := by
  rw [buy_success_shape env now store conditionId side amountUsdc currentPrice
    yesTokenId noTokenId skipSell hsplit]
  cases hT : sellTargetOf side yesTokenId noTokenId skipSell with
  | none =>
    simp only [hT]
    refine ⟨?_, by simp [isExecuted], by simp [recordPosition]⟩
    intro r hr
    have hr2 := (BuyResult.executed.inj hr).symm
    subst hr2
    refine ⟨?_, fun _ => rfl, ?_, fun _ => rfl⟩
    · intro k hk
      exact absurd hk (by simp)
    · intro hamt
      simp [if_pos hamt]
  | some t =>
    simp only [hT]
    cases hA : placeOrderAttempt env.maxRetries env.sellAttemptOk with
    | none =>
      simp only [hA]
      refine ⟨?_, by simp [isExecuted], by simp [recordPosition]⟩
      intro r hr
      have hr2 := (BuyResult.executed.inj hr).symm
      subst hr2
      refine ⟨?_, fun _ => rfl, ?_, fun _ => rfl⟩
      · intro k hk
        exact absurd hk (by simp)
      · intro hamt
        simp [if_pos hamt]
    | some a =>
      simp only [hA]
      refine ⟨?_, by simp [isExecuted], by simp [recordPosition]⟩
      intro r hr
      have hr2 := (BuyResult.executed.inj hr).symm
      subst hr2
      refine ⟨fun k _ => rfl, ?_, ?_, ?_⟩
      · intro hk
        exact absurd hk (by simp)
      · intro hamt
        simp [if_pos hamt]
      · intro hskip
        exact absurd hT (by simp [sellTargetOf, hskip])

/-- A concrete trade environment whose split succeeds and whose CLOB
transport accepts on the first attempt. -/
def exTradeEnvOk : TradeEnv :=
  { splitOk := true
    splitTxHash := "0xbeef"
    maxRetries := 5
    sellAttemptOk := fun _ => true }

/-- Witness for C4: a concrete buy whose hedge sell succeeds records one
position and returns through the executed path. -/
theorem buy_entry_price_postcondition_witness :
    isExecuted (buy exTradeEnvOk 1700000000 [] "0xc1" .yes 10 (46/100)
        (some "ty") (some "tn") false false).1 = true
    ∧ ((buy exTradeEnvOk 1700000000 [] "0xc1" .yes 10 (46/100)
        (some "ty") (some "tn") false false).2.1).length = 0 + 1 :=
  ⟨(buy_entry_price_postcondition exTradeEnvOk 1700000000 [] "0xc1" .yes 10
      (46/100) (some "ty") (some "tn") false rfl).2.1,
   (buy_entry_price_postcondition exTradeEnvOk 1700000000 [] "0xc1" .yes 10
      (46/100) (some "ty") (some "tn") false rfl).2.2⟩

/-- Helper: a buy with skip_sell=True submits no CLOB sell order, and
when its amount is positive every position it records has entry price 1
(recovered is 0, so entry = amount / amount). -/
theorem buy_skip_sell_trace (env : TradeEnv) (now : ℚ) (store : List Position)
    (conditionId : String) (side : Side) (amountUsdc currentPrice : ℚ)
    (yesTokenId noTokenId : Option String) (dryRun : Bool)
    (hamt : 0 < amountUsdc) :
    ((buy env now store conditionId side amountUsdc currentPrice
        yesTokenId noTokenId true dryRun).2.2).countP isSellOrder = 0
    ∧ ∀ e ∈ recordedEntryPrices (buy env now store conditionId side amountUsdc
        currentPrice yesTokenId noTokenId true dryRun).2.2, e = 1 := by
  cases dryRun with
  | true =>
    simp [buy, recordedEntryPrices]
  | false =>
    cases hs : env.splitOk with
    | false =>
      rw [buy_split_fail_shape env now store conditionId side amountUsdc
        currentPrice yesTokenId noTokenId true hs]
      simp [recordedEntryPrices, isSellOrder]
    | true =>
      rw [buy_success_shape env now store conditionId side amountUsdc
        currentPrice yesTokenId noTokenId true hs]
      have hT : sellTargetOf side yesTokenId noTokenId true = none := rfl
      simp only [hT]
      constructor
      · simp [isSellOrder]
      · intro e he
        simp only [recordedEntryPrices, List.filterMap_append,
          List.mem_append] at he
        rcases he with he | he
        · simp [List.filterMap] at he
        · simp only [List.filterMap, recordPosition] at he
          simp at he
          rw [he, if_pos hamt]
          exact div_self (ne_of_gt hamt)

/-- Helper: the combinatorial per-leg loop with a positive per-outcome
amount never sells and records only entry price 1. -/
theorem execCombLegs_trace (envs : ℕ → TradeEnv) (now : ℚ) (perOutcome : ℚ)
    (dryRun : Bool) (outs : List CombOutcome) (i : ℕ) (store : List Position)
    (hamt : 0 < perOutcome) :
    ((execCombLegs envs now perOutcome dryRun outs i store).2.2).countP
        isSellOrder = 0
    ∧ ∀ e ∈ recordedEntryPrices
        (execCombLegs envs now perOutcome dryRun outs i store).2.2, e = 1 := by
  induction outs generalizing i store with
  | nil =>
    simp [execCombLegs, recordedEntryPrices]
  | cons o os ih =>
    by_cases hc : o.condition_id = ""
    · rw [execCombLegs, if_pos hc]
      exact ih (i + 1) store
    · rw [execCombLegs, if_neg hc]
      have hb := buy_skip_sell_trace (envs i) now store o.condition_id .yes
        perOutcome o.yes_price o.yes_token_id none dryRun hamt
      have hr := ih (i + 1)
        (buy (envs i) now store o.condition_id .yes perOutcome o.yes_price
          o.yes_token_id none true dryRun).2.1
      constructor
      · simp only [List.countP_append]
        rw [hb.1, (hr).1]
      · intro e he
        simp only [recordedEntryPrices, List.filterMap_append,
          List.mem_append] at he
        rcases he with he | he
        · exact hb.2 e he
        · exact (hr).2 e he

/-- C9.  Every strategy execution path — the pair-cost
execute_opportunity, execute_combinatorial and execute_endgame — calls
buy with skip_sell=True, so no CLOB sell order ever appears in their
effect traces and (the per-leg amounts being positive) every position
they record carries entry price exactly 1, regardless of the market
price passed as current_price; likewise a direct non-dry-run buy with
skip_sell=True and positive amount records only entry price 1. -/
theorem strategy_paths_skip_hedge_entry_one :
    (∀ (env : TradeEnv) (now : ℚ) (store : List Position)
        (conditionId : String) (side : Side) (amountUsdc currentPrice : ℚ)
        (yesTokenId noTokenId : Option String),
      0 < amountUsdc →
      ((buy env now store conditionId side amountUsdc currentPrice
          yesTokenId noTokenId true false).2.2).countP isSellOrder = 0
      ∧ ∀ e ∈ recordedEntryPrices (buy env now store conditionId side
          amountUsdc currentPrice yesTokenId noTokenId true false).2.2, e = 1)
    ∧ (∀ (cfg : ScanConfig) (env : ExecEnv) (recentTrades : List ℚ)
        (store : List Position) (opp : PairOpp),
      ((executeOpportunity cfg env recentTrades store opp false).trace).countP
          isSellOrder = 0
      ∧ ∀ e ∈ recordedEntryPrices
          (executeOpportunity cfg env recentTrades store opp false).trace,
          e = 1)
    ∧ (∀ (envs : ℕ → TradeEnv) (now : ℚ) (store : List Position)
        (opp : CombOpp),
      0 < opp.max_size → 0 < opp.num_outcomes →
      ((executeCombinatorial envs now store opp false).2.2).countP
          isSellOrder = 0
      ∧ ∀ e ∈ recordedEntryPrices
          (executeCombinatorial envs now store opp false).2.2, e = 1)
    ∧ (∀ (env : TradeEnv) (now : ℚ) (store : List Position) (opp : EndgameOpp),
      0 < opp.max_size →
      ((executeEndgame env now store opp false).2.2).countP isSellOrder = 0
      ∧ ∀ e ∈ recordedEntryPrices
          (executeEndgame env now store opp false).2.2, e = 1) := by
  refine ⟨?_, ?_, ?_, ?_⟩
  · intro env now store conditionId side amountUsdc currentPrice
      yesTokenId noTokenId hamt
    exact buy_skip_sell_trace env now store conditionId side amountUsdc
      currentPrice yesTokenId noTokenId false hamt
  · intro cfg env recentTrades store opp
    rw [executeOpportunity]
    by_cases h1 : cfg.maxTradesPerHour ≤ tradesInLastHour env.now recentTrades
    · rw [if_pos h1]
      simp [recordedEntryPrices]
    · rw [if_neg h1]
      by_cases h2 : min opp.max_size cfg.maxPositionSize ≤ 0
      · rw [if_pos h2]
        simp [recordedEntryPrices]
      · rw [if_neg h2]
        cases hm : env.refreshed with
        | none =>
          simp [recordedEntryPrices, isSellOrder]
        | some market =>
          by_cases h3 : 1 ≤ market.yes_price.getD 0 + market.no_price.getD 0
              + cfg.takerFeeRate * 2
          · simp [h3, recordedEntryPrices, isSellOrder]
          · simp only [if_neg h3]
            have hhalf : 0 < min opp.max_size cfg.maxPositionSize / 2 := by
              have := lt_of_not_le h2
              linarith
            have hy := buy_skip_sell_trace env.yesTrade env.now store
              market.condition_id .yes (min opp.max_size cfg.maxPositionSize / 2)
              (market.yes_price.getD 0) market.yes_token_id market.no_token_id
              false hhalf
            have hn := buy_skip_sell_trace env.noTrade env.now
              (buy env.yesTrade env.now store market.condition_id .yes
                (min opp.max_size cfg.maxPositionSize / 2)
                (market.yes_price.getD 0) market.yes_token_id
                market.no_token_id true false).2.1
              market.condition_id .no (min opp.max_size cfg.maxPositionSize / 2)
              (market.no_price.getD 0) market.yes_token_id market.no_token_id
              false hhalf
            constructor
            · simp only [List.countP_append, List.countP_cons]
              rw [hy.1, hn.1]
              simp [isSellOrder]
            · intro e he
              simp only [recordedEntryPrices, List.filterMap_append,
                List.mem_append, List.filterMap_cons] at he
              rcases he with (he | he) | he
              · simp at he
              · exact hy.2 e he
              · exact hn.2 e he
  · intro envs now store opp hsz hn
    have hper : 0 < opp.max_size / (opp.num_outcomes : ℚ) := by
      apply div_pos hsz
      exact_mod_cast hn
    have h := execCombLegs_trace envs now
      (opp.max_size / (opp.num_outcomes : ℚ)) false opp.outcomes 0 store hper
    exact ⟨h.1, h.2⟩
  · intro env now store opp hsz
    have h := buy_skip_sell_trace env now store opp.condition_id
      opp.recommended_side opp.max_size opp.price opp.yes_token_id
      opp.no_token_id false hsz
    exact ⟨h.1, h.2⟩

/-- Witness for C9 at concrete inputs: a skip-sell buy of 10 USDC and a
concrete endgame execution record only entry price 1 and never sell. -/
theorem strategy_paths_skip_hedge_entry_one_witness :
    (((buy exTradeEnvOk 1700000000 [] "0xc1" .yes 10 (46/100)
        (some "ty") (some "tn") true false).2.2).countP isSellOrder = 0)
    ∧ (((executeEndgame exTradeEnvOk 1700000000 []
        { condition_id := "0xc2", market_question := "q2",
          recommended_side := .yes, price := 97/100, profit_per_token := 3/100,
          hours_to_resolution := 40, annualized_return := 67732/100,
          max_size := 25, liquidity := 500, yes_token_id := some "ty2",
          no_token_id := some "tn2" } false).2.2).countP isSellOrder = 0) :=
  ⟨(strategy_paths_skip_hedge_entry_one.1 exTradeEnvOk 1700000000 [] "0xc1"
      .yes 10 (46/100) (some "ty") (some "tn") (by norm_num)).1,
   (strategy_paths_skip_hedge_entry_one.2.2.2 exTradeEnvOk 1700000000 [] _
      (by norm_num)).1⟩

/-- Helper: a fallback price that survives the usability check is
positive. -/
theorem fallbackYesPrice_pos (ops : Option (List ℚ)) (p : ℚ)
    (h : fallbackYesPrice ops = some p) : 0 < p := by
  rcases ops with _ | ps
  · simp [fallbackYesPrice] at h
  · rcases ps with _ | ⟨p0, rest⟩
    · simp [fallbackYesPrice] at h
    · by_cases h0 : p0 ≤ 0
      · simp [fallbackYesPrice, h0] at h
      · rw [fallbackYesPrice, if_neg h0] at h
        rw [← Option.some.inj h]
        exact lt_of_not_le h0

/-- Helper: any usable per-outcome yes price is positive. -/
theorem combYesPrice_pos (m : EventMarket) (p : ℚ)
    (h : combYesPrice m = some p) : 0 < p := by
  rcases hf : m.tokens.find? (fun t => upperStr t.outcome = "YES") with _ | t
  · simp only [combYesPrice, hf] at h
    exact fallbackYesPrice_pos _ _ h
  · simp only [combYesPrice, hf] at h
    by_cases hp : t.price.getD 0 ≤ 0
    · rw [if_pos hp] at h
      exact fallbackYesPrice_pos _ _ h
    · rw [if_neg hp] at h
      rw [← Option.some.inj h]
      exact lt_of_not_le hp

/-- Helper: a successful accumulation pass yields one outcome per market,
each with a positive price. -/
theorem collectOutcomes_spec (ms : List EventMarket)
    (trip : List CombOutcome × ℚ × Option ℚ)
    (h : collectOutcomes ms = some trip) :
    trip.1.length = ms.length ∧ ∀ o ∈ trip.1, 0 < o.yes_price := by
  induction ms generalizing trip with
  | nil =>
    have h2 : some (([] : List CombOutcome), (0:ℚ), (none : Option ℚ))
        = some trip := h
    obtain rfl := Option.some.inj h2
    simp
  | cons m ms ih =>
    simp only [collectOutcomes] at h
    cases hp : combYesPrice m with
    | none =>
      rw [hp] at h
      exact absurd h (by simp)
    | some p =>
      rw [hp] at h
      cases hr : collectOutcomes ms with
      | none =>
        rw [hr] at h
        exact absurd h (by simp)
      | some trip2 =>
        obtain ⟨outs2, c2, l2⟩ := trip2
        rw [hr] at h
        obtain rfl := Option.some.inj h
        obtain ⟨ihl, ihp⟩ := ih (outs2, c2, l2) hr
        constructor
        · simpa using congrArg Nat.succ ihl
        · intro o ho
          rcases List.mem_cons.mp ho with rfl | ho2
          · exact combYesPrice_pos m p hp
          · exact ihp o ho2

/-- Helper: an emitted combinatorial opportunity has one outcome per
market of its event, every outcome priced positively. -/
theorem analyzeEvent_spec (cfg : ScanConfig) (e : CombEvent) (opp : CombOpp)
    (h : analyzeEvent cfg e = some opp) :
    opp.num_outcomes = e.markets.length
    ∧ opp.num_outcomes = opp.outcomes.length
    ∧ ∀ o ∈ opp.outcomes, 0 < o.yes_price := by
  cases hc : collectOutcomes e.markets with
  | none =>
    simp [analyzeEvent, hc] at h
  | some trip =>
    obtain ⟨outs, c, l⟩ := trip
    simp only [analyzeEvent, hc] at h
    split at h
    · exact absurd h (by simp)
    · split at h <;> split at h <;>
        first
          | exact Option.noConfusion h
          | (obtain rfl := Option.some.inj h
             obtain ⟨hl, hp⟩ := collectOutcomes_spec e.markets (outs, c, l) hc
             exact ⟨hl, rfl, hp⟩)

/-- C7, amended.  The composed combinatorial scan — the fetch filter of
fetch_neg_risk_events followed by analyze_event — never emits an
opportunity with fewer than 3 outcomes, and every emitted outcome carries
a positive (usable) yes price.  The three-outcome minimum is enforced
only by the fetch filter: analyze_event alone accepts smaller events (see
the counterexample). -/
theorem scan_combinatorial_min_three_outcomes (cfg : ScanConfig)
    (events : List CombEvent) (opp : CombOpp)
    (h : opp ∈ scanCombinatorial cfg events) :
    3 ≤ opp.num_outcomes ∧ opp.num_outcomes = opp.outcomes.length
    ∧ ∀ o ∈ opp.outcomes, 0 < o.yes_price := by
  have hmem : opp ∈ (filterNegRiskEvents events).filterMap (analyzeEvent cfg) :=
    ((List.perm_insertionSort _ _).mem_iff).mp h
  obtain ⟨e, he, hae⟩ := List.mem_filterMap.mp hmem
  simp only [filterNegRiskEvents] at he
  have hf := (List.mem_filter.mp he).2
  have h3 : 3 ≤ e.markets.length := by
    simp only [Bool.and_eq_true, decide_eq_true_eq] at hf
    exact hf.1
  obtain ⟨hlen, hlen2, hpos⟩ := analyzeEvent_spec cfg e opp hae
  exact ⟨hlen ▸ h3, hlen2, hpos⟩

/-- A concrete outcome market with one YES token priced 0.30 and
liquidity 500, used by the combinatorial examples. -/
def exCombMarket (cid q tid : String) : EventMarket :=
  { conditionId := cid
    question := q
    tokens := [{ outcome := "Yes", token_id := tid, price := some (3/10) }]
    outcomePrices := none
    liquidityNum := some 500 }

/-- Helper: the usable price of the concrete outcome markets used by the
combinatorial examples. -/
theorem combYesPrice_ex (cid q tid : String) :
    combYesPrice (exCombMarket cid q tid) = some (3/10) := by
  have hup : upperStr "Yes" = "YES" := by decide
  simp only [combYesPrice, exCombMarket, List.find?, hup]
  norm_num

/-- A one-market event with a valid token price and ample liquidity. -/
def cexSingleEvent : CombEvent :=
  { id := "ev1"
    title := "single outcome"
    negRisk := true
    markets := [exCombMarket "0xs1" "only outcome" "tok1"] }

/-- Counterexample to C7 as stated: analyze_event itself, applied to a
single-outcome event whose one outcome is validly priced, emits an
opportunity (with num_outcomes = 1 < 3); the analyzer does not reject
events with fewer than 3 valid-priced outcomes. -/
theorem analyze_event_small_event_counterexample :
    ((analyzeEvent defaultScanConfig cexSingleEvent).map
        (fun o => o.num_outcomes)) = some 1 := by
  simp only [analyzeEvent, cexSingleEvent, collectOutcomes, combYesPrice_ex]
  norm_num [exCombMarket, combYesTokenId, defaultScanConfig]

/-- A three-outcome event priced 0.30 each with ample liquidity (the
specification's own scenario). -/
def exThreeOutcomeEvent : CombEvent :=
  { id := "ev3"
    title := "three outcomes"
    negRisk := true
    markets := [exCombMarket "0xa1" "o1" "ta1",
                exCombMarket "0xa2" "o2" "ta2",
                exCombMarket "0xa3" "o3" "ta3"] }

/-- Witness for C7 (amended) at the concrete three-outcome event: the
composed scan emits exactly one opportunity and it has at least 3
outcomes. -/
theorem scan_combinatorial_min_three_outcomes_witness :
    (scanCombinatorial defaultScanConfig [exThreeOutcomeEvent]).length = 1
    ∧ (scanCombinatorial defaultScanConfig [exThreeOutcomeEvent]).countP
        (fun o => 3 ≤ o.num_outcomes) = 1 := by
  have hsome : (analyzeEvent defaultScanConfig exThreeOutcomeEvent).isSome
      = true := by
    simp only [analyzeEvent, exThreeOutcomeEvent, collectOutcomes,
      combYesPrice_ex]
    norm_num [exCombMarket, defaultScanConfig, min_self]
  obtain ⟨o, ho⟩ := Option.isSome_iff_exists.mp hsome
  have hscan : scanCombinatorial defaultScanConfig [exThreeOutcomeEvent]
      = [o] := by
    simp only [scanCombinatorial]
    have hfil : filterNegRiskEvents [exThreeOutcomeEvent]
        = [exThreeOutcomeEvent] := by
      simp [filterNegRiskEvents, exThreeOutcomeEvent]
    rw [hfil, List.filterMap_cons, ho]
    simp [List.insertionSort, List.orderedInsert]
  have hmem : o ∈ scanCombinatorial defaultScanConfig [exThreeOutcomeEvent] := by
    rw [hscan]
    exact List.mem_singleton.mpr rfl
  have h := scan_combinatorial_min_three_outcomes defaultScanConfig
    [exThreeOutcomeEvent] o hmem
  rw [hscan]
  refine ⟨rfl, ?_⟩
  simp [List.countP_cons, h.1]

/-- Helper: the opportunity a market emits carries that market's
condition id. -/
theorem pairDecision_cid (cfg : ScanConfig) (m : Market) (o : PairOpp)
    (h : pairDecision cfg m = some o) : o.condition_id = m.condition_id := by
  rcases hy : m.yes_price with _ | y
  · simp [pairDecision, hy] at h
  · rcases hn : m.no_price with _ | n
    · simp [pairDecision, hy, hn] at h
    · simp only [pairDecision, hy, hn] at h
      split at h
      · exact Option.noConfusion h
      · split at h <;> split at h <;>
          first
            | exact Option.noConfusion h
            | (obtain rfl := Option.some.inj h
               rfl)

/-- Helper: counting emissions with a given condition id in the raw
filterMap pass. -/
theorem countP_filterMap_cid (cfg : ScanConfig) (cid : String)
    (l : List Market) :
    (l.filterMap (pairDecision cfg)).countP (fun o => o.condition_id = cid)
      = l.countP
          (fun m => decide (m.condition_id = cid)
            && (pairDecision cfg m).isSome) := by
  induction l with
  | nil => rfl
  | cons m ms ih =>
    rw [List.filterMap_cons]
    cases hd : pairDecision cfg m with
    | none =>
      rw [List.countP_cons]
      simp [hd, ih]
    | some o =>
      have hcid := pairDecision_cid cfg m o hd
      rw [List.countP_cons, List.countP_cons, ih]
      simp [hcid, hd]

/-- Helper: counting a conjunction when exactly one element satisfies the
first predicate. -/
theorem countP_and_of_unique {α : Type} (p q : α → Bool) (l : List α)
    (m : α) (hm : m ∈ l) (h1 : l.countP p = 1) (hpm : p m = true) :
    l.countP (fun x => p x && q x) = if q m then 1 else 0 := by
  induction l with
  | nil => cases hm
  | cons x xs ih =>
    rw [List.countP_cons] at h1 ⊢
    by_cases hx : p x = true
    · rw [if_pos hx] at h1
      have h0 : xs.countP p = 0 := by omega
      have hmx : m = x := by
        rcases List.mem_cons.mp hm with h | h
        · exact h
        · exfalso
          have : 0 < xs.countP p := List.countP_pos_iff.mpr ⟨m, h, hpm⟩
          omega
      subst hmx
      have hall : ∀ y ∈ xs, ¬ (p y = true) := by
        intro y hy hpy
        have : 0 < xs.countP p := List.countP_pos_iff.mpr ⟨y, hy, hpy⟩
        omega
      have hz : xs.countP (fun y => p y && q y) = 0 := by
        rw [List.countP_eq_zero]
        intro y hy
        simp only [Bool.and_eq_true]
        rintro ⟨hp1, _⟩
        exact hall y hy hp1
      rw [hz]
      simp [hpm]
    · have hx2 : p x = false := by
        revert hx
        cases p x <;> simp
      rw [if_neg hx] at h1
      have hmxs : m ∈ xs := by
        rcases List.mem_cons.mp hm with h | h
        · subst h
          rw [hpm] at hx2
          cases hx2
        · exact h
      have := ih hmxs (by omega)
      simp [hx2, this]

/-- Helper: with both prices present, enough liquidity and positive net
cost, a market emits exactly when the code's profit-percentage gate
passes. -/
theorem pairDecision_isSome_iff (cfg : ScanConfig) (m : Market) (y n : ℚ)
    (hy : m.yes_price = some y) (hn : m.no_price = some n)
    (hl : cfg.minLiquidity ≤ m.liquidity)
    (hc : 0 < y + n + cfg.takerFeeRate * 2) :
    (pairDecision cfg m).isSome
      = decide (cfg.minProfitThreshold ≤
          (1 - (y + n + cfg.takerFeeRate * 2))
            / (y + n + cfg.takerFeeRate * 2)) := by
  simp only [pairDecision, hy, hn]
  rw [if_neg (not_lt.mpr hl), if_pos hc]
  by_cases hg : cfg.minProfitThreshold ≤
      (1 - (y + n + cfg.takerFeeRate * 2)) / (y + n + cfg.takerFeeRate * 2)
  · rw [if_pos hg]
    simp [hg]
  · rw [if_neg hg]
    simp [hg]

/-- A market whose pair cost lands exactly on 1 - MIN_PROFIT_THRESHOLD:
0.493 + 0.500 + 2 * 0.001 = 0.995 = 1 - 0.005. -/
def cexBoundaryMarket : Market :=
  { condition_id := "0xcex"
    question := "boundary market"
    yes_price := some (493/1000)
    no_price := some (1/2)
    yes_token_id := none
    no_token_id := none
    liquidity := 500 }

/-- Counterexample to C1 as stated: at the default configuration this
market has both prices present, liquidity above MIN_LIQUIDITY and
yes + no + 2 * fee equal to 1 - minProfit (so the claim's second half
demands zero emissions), yet scan_for_arbitrage emits one opportunity
for it, because the code's gate (1 - cost) / cost >= minProfit still
passes there. -/
theorem pair_scan_boundary_counterexample :
    (493/1000 : ℚ) + 1/2 + defaultScanConfig.takerFeeRate * 2
      = 1 - defaultScanConfig.minProfitThreshold
    ∧ defaultScanConfig.minLiquidity ≤ cexBoundaryMarket.liquidity
    ∧ (scanForArbitrage defaultScanConfig [cexBoundaryMarket]).length = 1 := by
  refine ⟨by norm_num [defaultScanConfig], by norm_num [defaultScanConfig, cexBoundaryMarket], ?_⟩
  norm_num [scanForArbitrage, pairDecision, cexBoundaryMarket,
    defaultScanConfig, List.filterMap, List.insertionSort, List.orderedInsert]

/-- C1, amended.  For every market in the input with both prices present,
liquidity at least MIN_LIQUIDITY, positive net cost and a unique
condition id, scan_for_arbitrage emits exactly one opportunity for that
market when (1 - cost) / cost >= minProfit (cost = yes + no + 2 * fee),
and none otherwise.  This is the code's actual gate; it does not coincide
with the spec's stated threshold cost < 1 - minProfit at the boundary
(see the counterexample). -/
theorem pair_scan_emission_iff_code_gate (cfg : ScanConfig)
    (markets : List Market) (m : Market) (y n : ℚ)
    (hmem : m ∈ markets)
    (huniq : markets.countP (fun x => x.condition_id = m.condition_id) = 1)
    (hy : m.yes_price = some y) (hn : m.no_price = some n)
    (hl : cfg.minLiquidity ≤ m.liquidity)
    (hc : 0 < y + n + cfg.takerFeeRate * 2) :
    (scanForArbitrage cfg markets).countP
        (fun o => o.condition_id = m.condition_id)
      = if cfg.minProfitThreshold ≤
            (1 - (y + n + cfg.takerFeeRate * 2))
              / (y + n + cfg.takerFeeRate * 2)
        then 1 else 0 := by
  have hperm : (scanForArbitrage cfg markets).countP
      (fun o => o.condition_id = m.condition_id)
      = (markets.filterMap (pairDecision cfg)).countP
          (fun o => o.condition_id = m.condition_id) :=
    (List.perm_insertionSort _ _).countP_eq _
  rw [hperm, countP_filterMap_cid]
  rw [countP_and_of_unique (fun x => decide (x.condition_id = m.condition_id))
    (fun x => (pairDecision cfg x).isSome) markets m hmem huniq
    (by simp)]
  rw [pairDecision_isSome_iff cfg m y n hy hn hl hc]
  by_cases hg : cfg.minProfitThreshold ≤
      (1 - (y + n + cfg.takerFeeRate * 2)) / (y + n + cfg.takerFeeRate * 2)
  · simp [hg]
  · simp [hg]

/-- Witness for C1 (amended) at the specification's own scenario market
(yes 0.46, no 0.50, liquidity 500): exactly one emission. -/
theorem pair_scan_emission_iff_code_gate_witness :
    (scanForArbitrage defaultScanConfig [exSyncMarket]).countP
        (fun o => o.condition_id = exSyncMarket.condition_id) = 1 := by
  have h := pair_scan_emission_iff_code_gate defaultScanConfig [exSyncMarket]
    exSyncMarket (46/100) (1/2)
    (List.mem_singleton.mpr rfl)
    (by simp)
    rfl rfl
    (by norm_num [defaultScanConfig, exSyncMarket])
    (by norm_num [defaultScanConfig])
  rw [h, if_pos (by norm_num [defaultScanConfig])]

/-- Helper: the tokens pass never conjures a price out of tokens that
carry none, whatever the token-id accumulator holds. -/
theorem normalizeTokens_go_none (tokens : List RawToken)
    (hyes : ∀ t ∈ tokens, upperStr t.outcome = "YES" → t.price = none)
    (hno : ∀ t ∈ tokens, upperStr t.outcome = "NO" → t.price = none) :
    ∀ yt nt : Option String,
      (tokens.foldl normalizeTokenStep (none, none, yt, nt)).1 = none
      ∧ (tokens.foldl normalizeTokenStep (none, none, yt, nt)).2.1 = none := by
  induction tokens with
  | nil =>
    intro yt nt
    exact ⟨rfl, rfl⟩
  | cons t ts ih =>
    intro yt nt
    have ihr := ih
      (fun x hx => hyes x (List.mem_cons_of_mem t hx))
      (fun x hx => hno x (List.mem_cons_of_mem t hx))
    rw [List.foldl_cons]
    by_cases hY : upperStr t.outcome = "YES"
    · have hp := hyes t (List.mem_cons_self t ts) hY
      rw [show normalizeTokenStep (none, none, yt, nt) t
          = (none, none, some t.token_id, nt) from by
        simp [normalizeTokenStep, hY, hp]]
      exact ihr _ _
    · by_cases hN : upperStr t.outcome = "NO"
      · have hp := hno t (List.mem_cons_self t ts) hN
        rw [show normalizeTokenStep (none, none, yt, nt) t
            = (none, none, yt, some t.token_id) from by
          simp [normalizeTokenStep, hY, hN, hp]]
        exact ihr _ _
      · rw [show normalizeTokenStep (none, none, yt, nt) t
            = (none, none, yt, nt) from by
          simp [normalizeTokenStep, hY, hN]]
        exact ihr _ _

/-- A market record whose refreshed yes price is missing (None) while the
no side is priced at 0.50. -/
def cexNullPriceMarket : Market :=
  { condition_id := "0xnull"
    question := "missing yes price"
    yes_price := none
    no_price := some (1/2)
    yes_token_id := none
    no_token_id := none
    liquidity := 500 }

/-- A concrete pair-cost opportunity dict used by the execution examples. -/
def exPairOpp : PairOpp :=
  { condition_id := "0xnull"
    market_question := "missing yes price"
    yes_price := 46/100
    no_price := 1/2
    yes_token_id := none
    no_token_id := none
    total_cost := 962/1000
    net_profit := 38/1000
    net_profit_pct := 19/481
    liquidity := 500
    max_size := 50 }

/-- Counterexample to C8 as stated: the pre-execution stale-price refresh
check does substitute 0 for a null refreshed price — on a refreshed
market whose yes price is None, execute_opportunity computes
refreshed cost 0 + 0.5 + 0.002 < 1 and proceeds instead of treating the
missing price as null and aborting. -/
theorem refresh_null_price_counterexample :
    cexNullPriceMarket.yes_price = none
    ∧ ((executeOpportunity defaultScanConfig
        { now := 0, refreshed := some cexNullPriceMarket,
          yesTrade := exTradeEnvOk, noTrade := exTradeEnvOk }
        [] [] exPairOpp true).result).isSome = true := by
  refine ⟨rfl, ?_⟩
  norm_num [executeOpportunity, tradesInLastHour, defaultScanConfig,
    exPairOpp, cexNullPriceMarket, buy]

/-- C8, amended.  The normalizer does leave absent prices as null: a raw
market none of whose YES/NO tokens carries a price and whose
outcomePrices key is absent normalizes to null yes and no prices.  The
pre-execution stale-price refresh check, however, substitutes 0 for a
null refreshed price (the Python `or 0`): with the yes price missing,
execute_opportunity proceeds precisely when the zero-coerced cost
0 + no + 2 * fee is below 1, rather than aborting on the null price. -/
theorem null_price_handling_amended :
    (∀ raw : RawMarket, raw.outcomePrices = none →
      (∀ t ∈ raw.tokens, upperStr t.outcome = "YES" → t.price = none) →
      (∀ t ∈ raw.tokens, upperStr t.outcome = "NO" → t.price = none) →
      (normalizeMarket raw).yes_price = none
      ∧ (normalizeMarket raw).no_price = none)
    ∧ (∀ (cfg : ScanConfig) (env : ExecEnv) (recentTrades : List ℚ)
        (store : List Position) (opp : PairOpp) (dryRun : Bool)
        (m : Market),
      env.refreshed = some m →
      m.yes_price = none →
      ¬ cfg.maxTradesPerHour ≤ tradesInLastHour env.now recentTrades →
      ¬ min opp.max_size cfg.maxPositionSize ≤ 0 →
      (((executeOpportunity cfg env recentTrades store opp dryRun).result).isSome
        ↔ m.no_price.getD 0 + cfg.takerFeeRate * 2 < 1)) := by
  constructor
  · intro raw hops hyes hno
    obtain ⟨h1, h2⟩ := normalizeTokens_go_none raw.tokens hyes hno none none
    have hb1 : (normalizeTokens raw.tokens).1 = none := h1
    have hb2 : (normalizeTokens raw.tokens).2.1 = none := h2
    constructor
    · simp [normalizeMarket, hops, hb1, hb2]
    · simp [normalizeMarket, hops, hb1, hb2]
  · intro cfg env recentTrades store opp dryRun m hm hy hthr hsz
    rw [executeOpportunity, if_neg hthr, if_neg hsz, hm]
    simp only [hy, Option.getD_none]
    by_cases hcost : (1:ℚ) ≤ 0 + m.no_price.getD 0 + cfg.takerFeeRate * 2
    · rw [if_pos hcost]
      simp only [Option.isSome_none, Bool.false_eq_true, false_iff, not_lt]
      linarith
    · rw [if_neg hcost]
      simp only [Option.isSome_some, true_iff]
      push_neg at hcost
      linarith

/-- Witness for C8 (amended): at the concrete null-priced market the
refresh gate passes with the zero-coerced cost 0.502 and execution
proceeds. -/
theorem null_price_handling_amended_witness :
    ((executeOpportunity defaultScanConfig
        { now := 0, refreshed := some cexNullPriceMarket,
          yesTrade := exTradeEnvOk, noTrade := exTradeEnvOk }
        [] [] exPairOpp false).result).isSome = true := by
  have h := null_price_handling_amended.2 defaultScanConfig
    { now := 0, refreshed := some cexNullPriceMarket,
      yesTrade := exTradeEnvOk, noTrade := exTradeEnvOk }
    [] [] exPairOpp false cexNullPriceMarket rfl rfl
    (by norm_num [tradesInLastHour, defaultScanConfig])
    (by norm_num [exPairOpp, defaultScanConfig])
  exact h.mpr (by norm_num [cexNullPriceMarket, defaultScanConfig])

end PolyArb
